import Mathlib

/-!
Verification development for the `projektwoche-setup` provisioning tool.

This file gives a shallow embedding, in Lean, of the orchestration core of the
repository (the `config/machine.rs`, `manager/instructions.rs` and
`manager/mod.rs` modules) and proves, or refutes, the behavioural claims made
about it.

Modelling conventions:
* Rust `&'static str` / `String` become Lean `String`.
* `Vec<T>` becomes `List T`, `HashMap<K, V>` becomes an association list with
  overwrite-on-insert (only `get`-style lookups are performed during
  orchestration, so iteration order is irrelevant).
* Fallible Rust functions returning `Result<(), Box<dyn Error>>` become
  `Except ExecError Unit`; the error payloads are structured constants
  mirroring the `.into()`-ed message strings of the source.
* Side effects are made observable by pairing every instruction run with the
  list of external `Effect`s it performs (process spawns, filesystem writes,
  console prints, sleeps).  The external world (exit statuses of spawned
  commands, file existence, environment variables, the clock) is an explicit
  `World` parameter.  Spawn launches themselves are assumed to succeed; the
  success/failure of the launched command is taken from the `World`.
* `#[cfg(windows)]` / `#[cfg(unix)]` conditional compilation becomes an
  explicit `Platform` parameter.
* The thread-per-package fan-out with a join-all barrier is modelled
  sequentially and deterministically: a phase produces the list of workers it
  spawns together with each worker's independently computed outcome; joining
  never propagates a worker's error or panic (matching the `if let Err(e) =
  handle.join()` logging in the source).  A Rust `panic!` / `.expect` inside
  a worker is modelled as the `WorkerOutcome.panicked` outcome.
-/

/-! ## OS identities and categories (`config/machine.rs`) -/

/-- The `os_info::Type` values that occur in the category constants of
`config/machine.rs`. -/
inductive OsType where
  | Linux | AlmaLinux | Alpaquita | Alpine | Amazon | AOSC | Arch | Artix
  | Bluefin | CachyOS | CentOS | Debian | EndeavourOS | Fedora | Garuda
  | Gentoo | Kali | Mabox | Manjaro | Mint | NixOS | Nobara | OpenEuler
  | OpenSUSE | OracleLinux | Pop | Raspbian | Redhat | RedHatEnterprise
  | RockyLinux | SUSE | Ubuntu | Ultramarine | Void | Windows | Macos
  | Android
deriving DecidableEq, Repr

/-- Newtype over `os_info::Type`, mirroring `pub struct OS(os_info::Type)`. -/
structure OS where
  ty : OsType
deriving DecidableEq, Repr

/-- `pub enum OsCategory` from `config/machine.rs`. -/
inductive OsCategory where
  | Windows | MacOS | LinuxBased | ArchBased | RHELBased | DebianBased
  | GentooBased | AndroidBased
deriving DecidableEq, Repr

def WINDOWS_BASED_OS : List OS := [⟨.Windows⟩]

def MAC_BASED_OS : List OS := [⟨.Macos⟩]

def LINUX_BASED_OS : List OS :=
  [⟨.Linux⟩, ⟨.AlmaLinux⟩, ⟨.Alpaquita⟩, ⟨.Alpine⟩, ⟨.Amazon⟩, ⟨.AOSC⟩,
   ⟨.Arch⟩, ⟨.Artix⟩, ⟨.Bluefin⟩, ⟨.CachyOS⟩, ⟨.CentOS⟩, ⟨.Debian⟩,
   ⟨.EndeavourOS⟩, ⟨.Fedora⟩, ⟨.Garuda⟩, ⟨.Gentoo⟩, ⟨.Kali⟩, ⟨.Mabox⟩,
   ⟨.Manjaro⟩, ⟨.Mint⟩, ⟨.NixOS⟩, ⟨.Nobara⟩, ⟨.OpenEuler⟩, ⟨.OpenSUSE⟩,
   ⟨.OracleLinux⟩, ⟨.Pop⟩, ⟨.Raspbian⟩, ⟨.Redhat⟩, ⟨.RedHatEnterprise⟩,
   ⟨.RockyLinux⟩, ⟨.SUSE⟩, ⟨.Ubuntu⟩, ⟨.Ultramarine⟩, ⟨.Void⟩]

def ARCH_BASED_OS : List OS :=
  [⟨.Arch⟩, ⟨.Artix⟩, ⟨.EndeavourOS⟩, ⟨.Garuda⟩, ⟨.Manjaro⟩, ⟨.CachyOS⟩]

def RHEL_BASED_OS : List OS :=
  [⟨.AlmaLinux⟩, ⟨.CentOS⟩, ⟨.Fedora⟩, ⟨.Nobara⟩, ⟨.OracleLinux⟩,
   ⟨.Redhat⟩, ⟨.RedHatEnterprise⟩, ⟨.RockyLinux⟩]

def DEBIAN_BASED_OS : List OS :=
  [⟨.Debian⟩, ⟨.Ubuntu⟩, ⟨.Mint⟩, ⟨.Pop⟩, ⟨.Raspbian⟩]

def GENTOO_BASED_OS : List OS := [⟨.Gentoo⟩]

def ANDROID_BASED_OS : List OS := [⟨.Android⟩]

/-- `pub struct OsMatcher` — an immutable list of supported OS identities. -/
structure OsMatcher where
  os_list : List OS

namespace OsMatcher

/-- `OsMatcher::new`. -/
def new (os_list : List OS) : OsMatcher := ⟨os_list⟩

/-- `OsMatcher::matches` (renamed: `matches` is a Lean keyword):
`self.os_list.iter().any(|o| o.0 == os.0)`. -/
def osMatches (m : OsMatcher) (os : OS) : Bool :=
  m.os_list.any (fun o => o.ty == os.ty)

/-- `OsMatcher::from_category`. -/
def from_category (category : OsCategory) : OsMatcher :=
  match category with
  | .Windows => new WINDOWS_BASED_OS
  | .MacOS => new MAC_BASED_OS
  | .LinuxBased => new LINUX_BASED_OS
  | .ArchBased => new ARCH_BASED_OS
  | .RHELBased => new RHEL_BASED_OS
  | .DebianBased => new DEBIAN_BASED_OS
  | .GentooBased => new GENTOO_BASED_OS
  | .AndroidBased => new ANDROID_BASED_OS

/-- `OsMatcher::from_categories`: union (by concatenation) of the category
lists, in order. -/
def from_categories (categories : List OsCategory) : OsMatcher :=
  new (categories.foldl (fun acc c => acc ++ (from_category c).os_list) [])

/-- `OsMatcher::get_list`. -/
def get_list (m : OsMatcher) : List OS := m.os_list

end OsMatcher

/-- `OsSelector` from `config/machine.rs`. -/
inductive OsSelector where
  | os (o : OS)
  | osCategory (c : OsCategory)

/-- `OsMatcher::from_selector`. -/
def OsMatcher.from_selector (selector : OsSelector) : OsMatcher :=
  match selector with
  | .os o => OsMatcher.new [o]
  | .osCategory c => OsMatcher.from_category c

/-! ## Execution model: errors, effects, platform, and the external world -/

/-- Structured rendering of the `Box<dyn Error>` message strings produced by
`manager/instructions.rs`. -/
inductive ExecError where
  /-- `"Empty command"` (`Run`, `Assert`) -/
  | emptyCommand
  /-- `"Command failed with exit code: …"` -/
  | commandFailed
  /-- `"Expected '…' but got '…'"` -/
  | assertionMismatch
  /-- `"Download failed"` -/
  | downloadFailed
  /-- `"No file extension"` (`ExtractArchive`) -/
  | noFileExtension
  /-- `"Unsupported archive format: …"` -/
  | unsupportedArchiveFormat (ext : String)
  /-- `fs::create_dir_all` failure propagated by `?` -/
  | createDirFailed
  /-- `"ZIP files should be extracted using extract_archive, not executed"` -/
  | zipMustBeExtracted
  /-- `"Unsupported filetype for execution"` -/
  | unsupportedFileType
  /-- `"EXE files can only be executed on Windows"` -/
  | exeOnlyOnWindows
  /-- `"MSI files can only be executed on Windows"` -/
  | msiOnlyOnWindows
  /-- `"Linux/macOS executables can only be executed on Unix-like systems"` -/
  | unixExecutableOnly
  /-- `"Execution failed with exit code: …"` -/
  | executionFailed
  /-- `"Timeout waiting for condition"` -/
  | conditionTimeout
  /-- `"Empty check command"` (`WaitForCondition`) -/
  | emptyCheckCommand
  /-- `"No suitable package manager found"` /
      `"No suitable language package manager found"` -/
  | noPackageManager
  /-- `"No service manager found"` -/
  | noServiceManager
  /-- `"Git clone failed"` -/
  | gitCloneFailed
  /-- `std::env::var` failure propagated by `?` -/
  | envVarMissing
  /-- `fs::read_to_string` failure propagated by `?` -/
  | fileReadFailed
  /-- `fs::write` / append failure propagated by `?` -/
  | fileWriteFailed
  /-- `fs::copy` failure propagated by `?` -/
  | copyFailed
  /-- `fs::remove_file` failure propagated by `?` -/
  | removeFailed
deriving DecidableEq, Repr

/-- External actions an instruction can perform, in the order performed. -/
inductive Effect where
  /-- `println!` / `eprintln!` output (the only non-observable action) -/
  | consoleOut (msg : String)
  /-- spawning an external process (`Command::status` / `Command::output`);
  network traffic in this program only happens through spawned `curl` -/
  | spawn (cmd : List String)
  /-- `fs::create_dir_all` -/
  | fsCreateDir (path : String)
  /-- `fs::write` -/
  | fsWriteFile (path : String)
  /-- appending via `OpenOptions::append` -/
  | fsAppendFile (path : String)
  /-- `fs::copy` -/
  | fsCopy (src : String) (dst : String)
  /-- `fs::remove_file` -/
  | fsRemove (path : String)
  /-- `thread::sleep` -/
  | sleep (secs : Nat)
deriving DecidableEq, Repr

/-- An effect is observable when it is anything but console output: a process
spawn (hence any network call), a filesystem mutation, or a sleep. -/
def Effect.observable : Effect → Bool
  | .consoleOut _ => false
  | _ => true

/-- Compilation target, standing in for the `#[cfg(windows)]` /
`#[cfg(any(unix, target_os = "macos"))]` conditional compilation. -/
inductive Platform where
  | windows
  | unix
deriving DecidableEq, Repr

/-- The external world an instruction interacts with.  Every query the Rust
code makes of its environment is a field; spawning is assumed to launch
successfully, with the spawned command's exit status and stdout provided by
`statusOk` / `outputOk` / `outputStdout`. -/
structure World where
  /-- `std::env::temp_dir()` -/
  tempDir : String
  /-- `std::env::var("HOME")` -/
  envHome : Option String
  /-- `std::env::var("USERPROFILE")` -/
  envUserProfile : Option String
  /-- seconds since the Unix epoch at `SystemTime::now()` -/
  now : Nat
  /-- `Path::exists` -/
  fileExists : String → Bool
  /-- exit-status success of `Command::status()` for the given argv -/
  statusOk : List String → Bool
  /-- exit-status success of `Command::output()` for the given argv -/
  outputOk : List String → Bool
  /-- captured stdout of `Command::output()` for the given argv -/
  outputStdout : List String → String
  /-- success of `fs::create_dir_all` -/
  createDirOk : String → Bool
  /-- success of `fs::copy src dst` -/
  copyOk : String → String → Bool
  /-- success of `fs::remove_file` -/
  removeOk : String → Bool
  /-- `fs::read_to_string` (`none` = read error) -/
  readFile : String → Option String
  /-- success of `fs::write` -/
  writeOk : String → Bool
  /-- success of open-append + `write_all` -/
  appendOk : String → Bool

/-! ## String helpers mirroring Rust std behaviour

These are written by structural recursion over the character list so that the
kernel can evaluate them on concrete inputs (the `String.split*` functions of
the standard library use well-founded recursion, which the kernel cannot
reduce). -/

/-- Splitting on a single separator character, keeping empty pieces: the
behaviour of Rust `str::split(sep)` (and of `str::splitn`-style helpers) for a
one-character pattern. -/
def splitOnCharAux (sep : Char) : List Char → List Char → List String
  | [], cur => [⟨cur.reverse⟩]
  | c :: rest, cur =>
    if c == sep then ⟨cur.reverse⟩ :: splitOnCharAux sep rest []
    else splitOnCharAux sep rest (c :: cur)

/-- Rust `str::split(sep)` for a one-character separator. -/
def splitOnChar (sep : Char) (s : String) : List String :=
  splitOnCharAux sep s.toList []

/-- Rust `str::split_whitespace`: split on whitespace, dropping empty
pieces. -/
def splitWsAux : List Char → List Char → List String
  | [], cur => if cur.isEmpty then [] else [⟨cur.reverse⟩]
  | c :: rest, cur =>
    if c.isWhitespace then
      if cur.isEmpty then splitWsAux rest []
      else ⟨cur.reverse⟩ :: splitWsAux rest []
    else splitWsAux rest (c :: cur)

/-- Rust `str::split_whitespace`. -/
def splitWhitespace (s : String) : List String :=
  splitWsAux s.toList []

/-- ASCII lowercasing, the effect of Rust `str::to_lowercase` on the ASCII
extensions this program compares against. -/
def lowerString (s : String) : String :=
  ⟨s.toList.map Char.toLower⟩

/-- The final path component, as used by `Path::extension` (ordinary
`dir/file.ext` shaped paths). -/
def fileNameOf (p : String) : String :=
  match (splitOnChar '/' p).reverse with
  | [] => ""
  | s :: _ => s

/-- Rust `Path::extension` for ordinary paths: the part of the file name after
the last `.`; `none` when there is no `.` or the only `.` leads a hidden file
such as `.bashrc`. -/
def extensionOf (p : String) : Option String :=
  match splitOnChar '.' (fileNameOf p) with
  | [] => none
  | [_] => none
  | first :: rest =>
    if first = "" && rest.length == 1 then none
    else rest.getLast?

/-- Whether `pat` is a prefix of `l` (character lists). -/
def listPrefixEq : List Char → List Char → Bool
  | [], _ => true
  | _ :: _, [] => false
  | a :: as, b :: bs => a == b && listPrefixEq as bs

/-- Whether `pat` occurs in some suffix. -/
def containsAux (pat : List Char) : List Char → Bool
  | [] => listPrefixEq pat []
  | c :: rest => listPrefixEq pat (c :: rest) || containsAux pat rest

/-- Rust `str::contains` (substring containment; the empty pattern is
contained in every string). -/
def strContains (s pat : String) : Bool :=
  containsAux pat.toList s.toList

/-! ## Instruction payload types (`manager/instructions.rs`) -/

/-- `pub struct DownloadAndExec`. -/
structure DownloadAndExec where
  url : String
  silent : Bool
  custom_args : Option (List String)
deriving DecidableEq, Repr

/-- `pub struct Run` — a command split into program and arguments. -/
structure Run where
  command : List String
deriving DecidableEq, Repr

/-- `pub struct DownloadTo`. -/
structure DownloadTo where
  url : String
  path : String
deriving DecidableEq, Repr

/-- `pub struct Assert`. -/
structure Assert where
  command : List String
  expect : String
deriving DecidableEq, Repr

/-- `pub struct ExtractArchive`. -/
structure ExtractArchive where
  archive_path : String
  destination : String
deriving DecidableEq, Repr

/-- `pub struct AddEnvVar`. -/
structure AddEnvVar where
  name : String
  value : String
deriving DecidableEq, Repr

/-- `pub struct CreateShortcut`. -/
structure CreateShortcut where
  name : String
  target : String
  icon : Option String
deriving DecidableEq, Repr

/-- `pub struct WaitForCondition`. -/
structure WaitForCondition where
  check_command : List String
  timeout_secs : Nat
deriving DecidableEq, Repr

/-- `pub struct InstallApplication`. -/
structure InstallApplication where
  package_name : String
deriving DecidableEq, Repr

/-- `pub struct InstallPackage`. -/
structure InstallPackage where
  package_name : String
deriving DecidableEq, Repr

/-- `pub struct CloneRepository`. -/
structure CloneRepository where
  url : String
  path : Option String
deriving DecidableEq, Repr

/-- `pub struct RequestSudo`. -/
structure RequestSudo where
  reason : String
deriving DecidableEq, Repr

/-- `pub struct RestartService`. -/
structure RestartService where
  service_name : String
deriving DecidableEq, Repr

/-- `pub struct BackupFile`. -/
structure BackupFile where
  path : String
deriving DecidableEq, Repr

/-- `pub struct EditFile`. -/
structure EditFile where
  path : String
  find : String
  replace : String
deriving DecidableEq, Repr

/-! ## Instruction execution (`AnyInstruction::run` implementations)

Each `run` returns the `Result` of the Rust function paired with the ordered
list of effects it performed. -/

/-- The temporary download path of `DownloadAndExec::run`:
`temp_dir.join(url.split('/').last().unwrap_or("download"))`. -/
def DownloadAndExec.tempPath (w : World) (d : DownloadAndExec) : String :=
  let filename :=
    match (splitOnChar '/' d.url).reverse with
    | [] => "download"
    | s :: _ => s
  w.tempDir ++ "/" ++ filename

/-- The `// Clean up downloaded file` epilogue of `DownloadAndExec::run`:
remove the temporary file when it exists, propagating a removal failure. -/
def cleanupDownload (w : World) (file_path : String) (effs : List Effect) :
    Except ExecError Unit × List Effect :=
  if w.fileExists file_path then
    if w.removeOk file_path then (.ok (), effs ++ [.fsRemove file_path])
    else (.error .removeFailed, effs)
  else (.ok (), effs)

/-- The silent-flag retry loop of the Windows `.exe` branch: spawn the
installer with each fallback flag in turn, stopping after the first success;
outcomes are otherwise ignored. -/
def silentRetrySpawns (w : World) (file_path : String) :
    List (List String) → List Effect
  | [] => []
  | flags :: rest =>
    let c := file_path :: flags
    if w.statusOk c then [Effect.spawn c]
    else Effect.spawn c :: silentRetrySpawns w file_path rest

/-- `DownloadAndExec::run`. -/
def DownloadAndExec.run (d : DownloadAndExec) (w : World) (pf : Platform)
    (dry : Bool) : Except ExecError Unit × List Effect :=
  let file_path := d.tempPath w
  if dry then
    (.ok (), [.consoleOut ("Dry run: would download " ++ d.url ++ " to " ++ file_path)])
  else
    let curlCmd := ["curl", "-L", "-o", file_path, d.url]
    let dl : List Effect := [.spawn curlCmd]
    if w.outputOk curlCmd = false then (.error .downloadFailed, dl)
    else
      let ext := lowerString (Option.getD (extensionOf file_path) "")
      if ext = "exe" then
        match pf with
        | .windows =>
          let primary :=
            match d.custom_args with
            | some a => file_path :: a
            | none => if d.silent then [file_path, "/S"] else [file_path]
          let retryEffs :=
            if w.statusOk primary then []
            else
              match d.custom_args with
              | some _ => []
              | none =>
                if d.silent then
                  silentRetrySpawns w file_path
                    [["/SILENT"], ["/VERYSILENT"], ["/quiet"], ["/Q"], ["/s"],
                     ["--silent"], ["-s"]]
                else []
          cleanupDownload w file_path (dl ++ [.spawn primary] ++ retryEffs)
        | .unix => (.error .exeOnlyOnWindows, dl)
      else if ext = "msi" then
        match pf with
        | .windows =>
          let args :=
            match d.custom_args with
            | some a => a
            | none => if d.silent then ["/quiet", "/qn", "/norestart"] else []
          cleanupDownload w file_path
            (dl ++ [.spawn (["msiexec", "/i", file_path] ++ args)])
        | .unix => (.error .msiOnlyOnWindows, dl)
      else if ext = "" then
        match pf with
        | .unix =>
          let args :=
            match d.custom_args with
            | some a => a
            | none => []
          let cmd1 := file_path :: args
          if w.statusOk cmd1 then cleanupDownload w file_path (dl ++ [.spawn cmd1])
          else (.error .executionFailed, dl ++ [.spawn cmd1])
        | .windows => (.error .unixExecutableOnly, dl)
      else if ext = "zip" then (.error .zipMustBeExtracted, dl)
      else (.error .unsupportedFileType, dl)

/-- `Run::run` (note: the empty-command validation precedes the dry-run
check). -/
def Run.run (r : Run) (w : World) (dry : Bool) :
    Except ExecError Unit × List Effect :=
  if r.command = [] then (.error .emptyCommand, [])
  else if dry then
    (.ok (), [.consoleOut ("Dry run: would execute command: " ++ String.intercalate " " r.command)])
  else if w.statusOk r.command then (.ok (), [.spawn r.command])
  else (.error .commandFailed, [.spawn r.command])

/-- `DownloadTo::run`. -/
def DownloadTo.run (d : DownloadTo) (w : World) (dry : Bool) :
    Except ExecError Unit × List Effect :=
  if dry then
    (.ok (), [.consoleOut ("Dry run: would download " ++ d.url ++ " to " ++ d.path)])
  else
    let curlCmd := ["curl", "-L", "-o", d.path, d.url]
    if w.outputOk curlCmd then (.ok (), [.spawn curlCmd])
    else (.error .downloadFailed, [.spawn curlCmd])

/-- `Assert::run` (note: the empty-command validation precedes the dry-run
check). -/
def Assert.run (a : Assert) (w : World) (dry : Bool) :
    Except ExecError Unit × List Effect :=
  if a.command = [] then (.error .emptyCommand, [])
  else if dry then
    (.ok (), [.consoleOut ("Dry run: expect the result of: " ++
      String.intercalate " " a.command ++ " to be " ++ a.expect)])
  else
    let eff : List Effect := [.spawn a.command]
    if w.outputOk a.command = false then (.error .commandFailed, eff)
    else if strContains (w.outputStdout a.command) a.expect then (.ok (), eff)
    else (.error .assertionMismatch, eff)

/-- The extraction commands `ExtractArchive::run` dispatches to, by lowercased
extension. -/
def extractToolCmd (ext archive_path destination : String) : Option (List String) :=
  if ext = "zip" then some ["unzip", "-o", archive_path, "-d", destination]
  else if ext = "gz" ∨ ext = "tgz" then
    some ["tar", "-xzf", archive_path, "-C", destination]
  else if ext = "bz2" ∨ ext = "tbz2" then
    some ["tar", "-xjf", archive_path, "-C", destination]
  else if ext = "xz" ∨ ext = "txz" then
    some ["tar", "-xJf", archive_path, "-C", destination]
  else none

/-- `ExtractArchive::run` (note the order: extension validation, then the
dry-run check, then `fs::create_dir_all(destination)`, and only then the
dispatch on the extension). -/
def ExtractArchive.run (e : ExtractArchive) (w : World) (dry : Bool) :
    Except ExecError Unit × List Effect :=
  match extensionOf e.archive_path with
  | none => (.error .noFileExtension, [])
  | some ext =>
    if dry then
      (.ok (), [.consoleOut ("Dry run: would extract " ++ e.archive_path ++
        " to " ++ e.destination)])
    else if w.createDirOk e.destination = false then
      (.error .createDirFailed, [.fsCreateDir e.destination])
    else
      match extractToolCmd (lowerString ext) e.archive_path e.destination with
      | some cmd => (.ok (), [.fsCreateDir e.destination, .spawn cmd])
      | none =>
        (.error (.unsupportedArchiveFormat ext), [.fsCreateDir e.destination])

/-- `AddEnvVar::run`: both the `setx` block and the `.bashrc` block execute
unconditionally (the source has no `cfg` attribute on either block). -/
def AddEnvVar.run (a : AddEnvVar) (w : World) (dry : Bool) :
    Except ExecError Unit × List Effect :=
  if dry then
    (.ok (), [.consoleOut ("Dry run: would set environment variable " ++
      a.name ++ "=" ++ a.value)])
  else
    let e1 : List Effect := [.spawn ["setx", a.name, a.value]]
    match w.envHome with
    | none => (.error .envVarMissing, e1)
    | some home =>
      let bashrc := home ++ "/.bashrc"
      if w.appendOk bashrc then (.ok (), e1 ++ [.fsAppendFile bashrc])
      else (.error .fileWriteFailed, e1)

/-- `CreateShortcut::run`: the PowerShell block and the `.desktop` block both
execute unconditionally (no `cfg` attributes in the source). -/
def CreateShortcut.run (c : CreateShortcut) (w : World) (dry : Bool) :
    Except ExecError Unit × List Effect :=
  if dry then
    (.ok (), [.consoleOut ("Dry run: would create shortcut '" ++ c.name ++
      "' pointing to '" ++ c.target ++ "'")])
  else
    match w.envUserProfile with
    | none => (.error .envVarMissing, [])
    | some up =>
      let shortcut_path := up ++ "\\Desktop\\" ++ c.name ++ ".lnk"
      let ps := "$WshShell = New-Object -comObject WScript.Shell; " ++
        "$Shortcut = $WshShell.CreateShortcut(\"" ++ shortcut_path ++
        "\"); $Shortcut.TargetPath = \"" ++ c.target ++ "\"; $Shortcut.Save()"
      let e1 : List Effect := [.spawn ["powershell", "-Command", ps]]
      match w.envHome with
      | none => (.error .envVarMissing, e1)
      | some home =>
        let desktop_path := home ++ "/Desktop/" ++ c.name ++ ".desktop"
        let iconLine :=
          match c.icon with
          | some icon => "Icon=" ++ icon ++ "\n"
          | none => ""
        let entry := "[Desktop Entry]\nVersion=1.0\nType=Application\nName=" ++
          c.name ++ "\nExec=" ++ c.target ++ "\n" ++ iconLine ++ "Terminal=false\n"
        let _ := entry
        if w.writeOk desktop_path then
          (.ok (), e1 ++ [.fsWriteFile desktop_path,
            .spawn ["chmod", "+x", desktop_path]])
        else (.error .fileWriteFailed, e1)

/-- `WaitForCondition::run`.  The real-time polling loop (poll roughly once a
second until the timeout elapses) is modelled against the time-invariant
`World`: with a zero timeout the loop body never runs and the timeout error is
returned; otherwise the first poll decides, and on persistent failure one poll
and one sleep per second of the timeout are recorded. -/
def WaitForCondition.run (wc : WaitForCondition) (w : World) (dry : Bool) :
    Except ExecError Unit × List Effect :=
  if dry then
    (.ok (), [.consoleOut ("Dry run: would wait up to " ++
      toString wc.timeout_secs ++ " seconds for command '" ++
      String.intercalate " " wc.check_command ++ "' to succeed")])
  else if wc.timeout_secs = 0 then (.error .conditionTimeout, [])
  else if wc.check_command = [] then (.error .emptyCheckCommand, [])
  else if w.statusOk wc.check_command then
    (.ok (), [.spawn wc.check_command])
  else
    (.error .conditionTimeout,
      (List.replicate wc.timeout_secs
        [Effect.spawn wc.check_command, Effect.sleep 1]).flatten)

/-- The probe-then-invoke loop shared by `InstallApplication::run` and
`InstallPackage::run`: for each candidate, spawn its availability check; if
that succeeds, spawn the install command and stop on success; otherwise move
on.  Returns whether any candidate succeeded, with the spawns performed. -/
def probeManagers (w : World) (checkCmd : String → List String) :
    List (String × List String) → Bool × List Effect
  | [] => (false, [])
  | (pm, args) :: rest =>
    let check := checkCmd pm
    if w.outputOk check then
      if w.statusOk args then (true, [.spawn check, .spawn args])
      else
        let (b, effs) := probeManagers w checkCmd rest
        (b, .spawn check :: .spawn args :: effs)
    else
      let (b, effs) := probeManagers w checkCmd rest
      (b, .spawn check :: effs)

/-- The system package-manager candidates of `InstallApplication::run` on
non-Windows targets. -/
def systemManagers (name : String) : List (String × List String) :=
  [("apt", ["apt", "install", "-y", name]),
   ("yum", ["yum", "install", "-y", name]),
   ("dnf", ["dnf", "install", "-y", name]),
   ("pacman", ["pacman", "-S", "--noconfirm", name]),
   ("zypper", ["zypper", "install", "-y", name]),
   ("brew", ["brew", "install", name])]

/-- `InstallApplication::run`. -/
def InstallApplication.run (i : InstallApplication) (w : World) (pf : Platform)
    (dry : Bool) : Except ExecError Unit × List Effect :=
  if dry then
    (.ok (), [.consoleOut ("Dry run: would install package '" ++
      i.package_name ++ "'")])
  else
    match pf with
    | .unix =>
      let (found, effs) :=
        probeManagers w (fun pm => ["which", pm]) (systemManagers i.package_name)
      if found then (.ok (), effs) else (.error .noPackageManager, effs)
    | .windows =>
      let chocoCheck := ["choco", "--version"]
      let wingetCheck := ["winget", "--version"]
      let chocoCmd := ["choco", "install", i.package_name, "-y"]
      let wingetCmd := ["winget", "install", "--id", i.package_name, "-e"]
      if w.outputOk chocoCheck then
        if w.statusOk chocoCmd then (.ok (), [.spawn chocoCheck, .spawn chocoCmd])
        else if w.outputOk wingetCheck then
          if w.statusOk wingetCmd then
            (.ok (), [.spawn chocoCheck, .spawn chocoCmd, .spawn wingetCheck,
              .spawn wingetCmd])
          else
            (.error .noPackageManager, [.spawn chocoCheck, .spawn chocoCmd,
              .spawn wingetCheck, .spawn wingetCmd])
        else
          (.error .noPackageManager, [.spawn chocoCheck, .spawn chocoCmd,
            .spawn wingetCheck])
      else if w.outputOk wingetCheck then
        if w.statusOk wingetCmd then
          (.ok (), [.spawn chocoCheck, .spawn wingetCheck, .spawn wingetCmd])
        else
          (.error .noPackageManager, [.spawn chocoCheck, .spawn wingetCheck,
            .spawn wingetCmd])
      else (.error .noPackageManager, [.spawn chocoCheck, .spawn wingetCheck])

/-- The language package-manager candidates of `InstallPackage::run` (the
`*pm == "go"` special case in the availability check is dead: `"go"` is not in
this list; Go is handled after the loop). -/
def languageManagers (name : String) : List (String × List String) :=
  [("npm", ["npm", "install", "-g", name]),
   ("yarn", ["yarn", "global", "add", name]),
   ("bun", ["bun", "add", "-g", name]),
   ("pnpm", ["pnpm", "add", "-g", name]),
   ("cargo", ["cargo", "install", name]),
   ("pipx", ["pipx", "install", name]),
   ("pip", ["pip", "install", "--user", name]),
   ("gem", ["gem", "install", name])]

/-- `InstallPackage::run`. -/
def InstallPackage.run (i : InstallPackage) (w : World) (dry : Bool) :
    Except ExecError Unit × List Effect :=
  if dry then
    (.ok (), [.consoleOut ("Dry run: would install package '" ++
      i.package_name ++ "' using language package manager")])
  else
    let (found, effs) :=
      probeManagers w (fun pm => [pm, "--version"]) (languageManagers i.package_name)
    if found then (.ok (), effs)
    else
      let goCheck := ["go", "version"]
      if w.outputOk goCheck then
        let goCmd := ["go", "install", i.package_name ++ "@latest"]
        if w.statusOk goCmd then (.ok (), effs ++ [.spawn goCheck, .spawn goCmd])
        else (.error .noPackageManager, effs ++ [.spawn goCheck, .spawn goCmd])
      else (.error .noPackageManager, effs ++ [.spawn goCheck])

/-- `CloneRepository::run`. -/
def CloneRepository.run (c : CloneRepository) (w : World) (dry : Bool) :
    Except ExecError Unit × List Effect :=
  if dry then
    (.ok (), [.consoleOut ("Dry run: would clone repository '" ++ c.url ++ "'")])
  else
    let cmd := ["git", "clone", c.url] ++
      (match c.path with
       | some p => [p]
       | none => [])
    if w.statusOk cmd then (.ok (), [.spawn cmd])
    else (.error .gitCloneFailed, [.spawn cmd])

/-- `RequestSudo::run`: both the `sudo -v` block and the Windows advisory
print execute unconditionally (no `cfg` attributes in the source). -/
def RequestSudo.run (r : RequestSudo) (_w : World) (dry : Bool) :
    Except ExecError Unit × List Effect :=
  if dry then
    (.ok (), [.consoleOut ("Dry run: would request administrator privileges: " ++
      r.reason)])
  else
    (.ok (), [.consoleOut ("Administrator privileges required: " ++ r.reason),
      .spawn ["sudo", "-v"],
      .consoleOut "Please ensure you are running as Administrator or have UAC enabled"])

/-- `RestartService::run`: the `sc` block and the `systemctl`/`service` block
both execute unconditionally (no `cfg` attributes in the source). -/
def RestartService.run (rs : RestartService) (w : World) (dry : Bool) :
    Except ExecError Unit × List Effect :=
  if dry then
    (.ok (), [.consoleOut ("Dry run: would restart service '" ++
      rs.service_name ++ "'")])
  else
    let e1 : List Effect := [.spawn ["sc", "stop", rs.service_name], .sleep 2,
      .spawn ["sc", "start", rs.service_name]]
    let sysCheck := ["systemctl", "--version"]
    if w.outputOk sysCheck then
      (.ok (), e1 ++ [.spawn sysCheck,
        .spawn ["systemctl", "restart", rs.service_name]])
    else
      let svcCheck := ["service", "--version"]
      if w.outputOk svcCheck then
        (.ok (), e1 ++ [.spawn sysCheck, .spawn svcCheck,
          .spawn ["service", rs.service_name, "restart"]])
      else (.error .noServiceManager, e1 ++ [.spawn sysCheck, .spawn svcCheck])

/-- `BackupFile::run`: a missing source file returns `Ok` with nothing done
(`return Ok(()); // Nothing to backup`). -/
def BackupFile.run (b : BackupFile) (w : World) (dry : Bool) :
    Except ExecError Unit × List Effect :=
  if dry then
    (.ok (), [.consoleOut ("Dry run: would backup file '" ++ b.path ++ "'")])
  else if w.fileExists b.path = false then (.ok (), [])
  else
    let backup_path := b.path ++ ".backup." ++ toString w.now
    if w.copyOk b.path backup_path then
      (.ok (), [.fsCopy b.path backup_path,
        .consoleOut ("Backed up " ++ b.path ++ " to " ++ backup_path)])
    else (.error .copyFailed, [])

/-- `EditFile::run`. -/
def EditFile.run (e : EditFile) (w : World) (dry : Bool) :
    Except ExecError Unit × List Effect :=
  if dry then
    (.ok (), [.consoleOut ("Dry run: would edit file '" ++ e.path ++
      "' replacing '" ++ e.find ++ "' with '" ++ e.replace ++ "'")])
  else
    match w.readFile e.path with
    | none => (.error .fileReadFailed, [])
    | some content =>
      let newContent := content.replace e.find e.replace
      let _ := newContent
      if w.writeOk e.path then (.ok (), [.fsWriteFile e.path])
      else (.error .fileWriteFailed, [])

/-- `pub enum Instructions` — the unified instruction type. -/
inductive Instructions where
  | DownloadAndExec (i : DownloadAndExec)
  | Run (i : Run)
  | DownloadTo (i : DownloadTo)
  | Assert (i : Assert)
  | ExtractArchive (i : ExtractArchive)
  | AddEnvVar (i : AddEnvVar)
  | CreateShortcut (i : CreateShortcut)
  | WaitForCondition (i : WaitForCondition)
  | InstallApplication (i : InstallApplication)
  | InstallPackage (i : InstallPackage)
  | CloneRepository (i : CloneRepository)
  | RequestSudo (i : RequestSudo)
  | RestartService (i : RestartService)
  | BackupFile (i : BackupFile)
  | EditFile (i : EditFile)
deriving DecidableEq, Repr

/-- `impl AnyInstruction for Instructions` — dispatch to the variant. -/
def Instructions.run (inst : Instructions) (w : World) (pf : Platform)
    (dry : Bool) : Except ExecError Unit × List Effect :=
  match inst with
  | .DownloadAndExec i => i.run w pf dry
  | .Run i => i.run w dry
  | .DownloadTo i => i.run w dry
  | .Assert i => i.run w dry
  | .ExtractArchive i => i.run w dry
  | .AddEnvVar i => i.run w dry
  | .CreateShortcut i => i.run w dry
  | .WaitForCondition i => i.run w dry
  | .InstallApplication i => i.run w pf dry
  | .InstallPackage i => i.run w dry
  | .CloneRepository i => i.run w dry
  | .RequestSudo i => i.run w dry
  | .RestartService i => i.run w dry
  | .BackupFile i => i.run w dry
  | .EditFile i => i.run w dry

/-- `pub struct Instruction` — the builder carrying a descriptor and the
instruction set by the builder methods. -/
structure Instruction where
  descriptor : String
  instruction : Option Instructions

namespace Instruction

/-- `Instruction::new`. -/
def new (descriptor : String) : Instruction := ⟨descriptor, none⟩

/-- `Instruction::cmd` (the command is split on whitespace, so an empty or
all-whitespace string yields a `Run` with an empty command vector). -/
def cmd (i : Instruction) (command : String) : Instructions :=
  let _ := i
  .Run ⟨splitWhitespace command⟩

/-- `Instruction::assert`. -/
def assert (i : Instruction) (command : String) (expect : String) : Instructions :=
  let _ := i
  .Assert ⟨splitWhitespace command, expect⟩

/-- `Instruction::download_and_exec`. -/
def download_and_exec (i : Instruction) (url : String) : Instructions :=
  let _ := i
  .DownloadAndExec ⟨url, false, none⟩

/-- `Instruction::download_and_exec_silent`. -/
def download_and_exec_silent (i : Instruction) (url : String) : Instructions :=
  let _ := i
  .DownloadAndExec ⟨url, true, none⟩

/-- `Instruction::download_and_exec_with_args`. -/
def download_and_exec_with_args (i : Instruction) (url : String)
    (args : List String) : Instructions :=
  let _ := i
  .DownloadAndExec ⟨url, false, some args⟩

/-- `Instruction::install_application`. -/
def install_application (i : Instruction) (package_name : String) : Instructions :=
  let _ := i
  .InstallApplication ⟨package_name⟩

/-- `Instruction::install_package`. -/
def install_package (i : Instruction) (package_name : String) : Instructions :=
  let _ := i
  .InstallPackage ⟨package_name⟩

/-- `Instruction::execute`: run the associated instruction if one was set,
otherwise succeed doing nothing. -/
def execute (i : Instruction) (w : World) (pf : Platform) (dry : Bool) :
    Except ExecError Unit × List Effect :=
  match i.instruction with
  | some inst => inst.run w pf dry
  | none => (.ok (), [])

end Instruction

/-! ## Packages, mappings and the phased orchestrator (`manager/mod.rs`) -/

/-- `struct InstructionSet<T>`: the `install` field holds the instructions of
the operation; the `uninstall` field exists in the source but is never
populated (every builder extends `.install`). -/
structure InstructionSet (T : Type) where
  install : List T
  uninstall : List T
deriving DecidableEq, Repr

/-- `InstructionSet::new`. -/
def InstructionSet.new {T : Type} : InstructionSet T := ⟨[], []⟩

/-- `pub struct InstructionMapping` — the five per-phase instruction lists. -/
structure InstructionMapping where
  prerequisite_checks : List Instructions
  install_instructions : InstructionSet Instructions
  uninstall_instructions : InstructionSet Instructions
  configuration_instructions : InstructionSet Instructions
  deconfiguration_instructions : InstructionSet Instructions
deriving DecidableEq, Repr

namespace InstructionMapping

/-- `InstructionMapping::new`. -/
def new : InstructionMapping :=
  ⟨[], InstructionSet.new, InstructionSet.new, InstructionSet.new,
   InstructionSet.new⟩

/-- Whether an instruction is the `Assert` variant (the test performed by the
validation loop of `add_prerequisite_checks`). -/
def isAssert : Instructions → Bool
  | .Assert _ => true
  | _ => false

/-- `InstructionMapping::add_prerequisite_checks`.  The source panics on any
non-`Assert` instruction; the panic is modelled as `none`: the construction
fails fast and yields no mapping. -/
def add_prerequisite_checks (m : InstructionMapping)
    (checks : List Instructions) : Option InstructionMapping :=
  if checks.all isAssert then
    some { m with prerequisite_checks := m.prerequisite_checks ++ checks }
  else none

/-- `InstructionMapping::add_install_instructions`. -/
def add_install_instructions (m : InstructionMapping)
    (instructions : List Instructions) : InstructionMapping :=
  { m with install_instructions :=
      { m.install_instructions with
        install := m.install_instructions.install ++ instructions } }

/-- `InstructionMapping::add_uninstall_instructions` (extends the `install`
field of the uninstall set, as the source does). -/
def add_uninstall_instructions (m : InstructionMapping)
    (instructions : List Instructions) : InstructionMapping :=
  { m with uninstall_instructions :=
      { m.uninstall_instructions with
        install := m.uninstall_instructions.install ++ instructions } }

/-- `InstructionMapping::add_configuration_instructions`. -/
def add_configuration_instructions (m : InstructionMapping)
    (instructions : List Instructions) : InstructionMapping :=
  { m with configuration_instructions :=
      { m.configuration_instructions with
        install := m.configuration_instructions.install ++ instructions } }

/-- `InstructionMapping::add_deconfiguration_instructions`. -/
def add_deconfiguration_instructions (m : InstructionMapping)
    (instructions : List Instructions) : InstructionMapping :=
  { m with deconfiguration_instructions :=
      { m.deconfiguration_instructions with
        install := m.deconfiguration_instructions.install ++ instructions } }

end InstructionMapping

/-- The mappings obtainable through the builder API of `InstructionMapping`:
start from `new` and apply any sequence of the five `add_*` methods (a failing
`add_prerequisite_checks` panics and yields nothing). -/
inductive ReachableMapping : InstructionMapping → Prop where
  | new : ReachableMapping InstructionMapping.new
  | prereq {m m' : InstructionMapping} {checks : List Instructions} :
      ReachableMapping m →
      m.add_prerequisite_checks checks = some m' →
      ReachableMapping m'
  | install {m : InstructionMapping} {l : List Instructions} :
      ReachableMapping m → ReachableMapping (m.add_install_instructions l)
  | uninstallI {m : InstructionMapping} {l : List Instructions} :
      ReachableMapping m → ReachableMapping (m.add_uninstall_instructions l)
  | configure {m : InstructionMapping} {l : List Instructions} :
      ReachableMapping m → ReachableMapping (m.add_configuration_instructions l)
  | deconfigure {m : InstructionMapping} {l : List Instructions} :
      ReachableMapping m → ReachableMapping (m.add_deconfiguration_instructions l)

/-- `pub struct Package`: name, description and the per-OS mapping.  The
`HashMap<OS, InstructionMapping>` is an association list; `insert` overwrites
the entry for an existing key. -/
structure Package where
  name : String
  description : String
  mapping : List (OS × InstructionMapping)

/-- `HashMap::insert` on the association-list model. -/
def mapInsert (m : List (OS × InstructionMapping)) (k : OS)
    (v : InstructionMapping) : List (OS × InstructionMapping) :=
  (k, v) :: m.filter (fun p => p.1 ≠ k)

/-- `HashMap::get` on the association-list model. -/
def mapGet (m : List (OS × InstructionMapping)) (k : OS) :
    Option InstructionMapping :=
  match m.find? (fun p => p.1 == k) with
  | some p => some p.2
  | none => none

namespace Package

/-- `Package::new`. -/
def new (name description : String) : Package := ⟨name, description, []⟩

/-- `Package::add_mapping`: insert a clone of the mapping for every OS
identity in the matcher's list. -/
def add_mapping (p : Package) (os : OsMatcher) (mapping : InstructionMapping) :
    Package :=
  { p with mapping := os.get_list.foldl (fun acc o => mapInsert acc o mapping) p.mapping }

end Package

/-- `pub struct SoftwareBundle`. -/
structure SoftwareBundle where
  name : String
  description : String
  programs : List Package

/-- The four orchestration phases. -/
inductive PhaseName where
  | install
  | configure
  | uninstall
  | deconfigure
deriving DecidableEq, Repr

/-- How a per-package worker exits its function body. -/
inductive WorkerOutcome where
  /-- the `.expect(…)` on a missing OS mapping panicked; caught at the join -/
  | panicked
  /-- a prerequisite check succeeded: `return` after logging
  "Program already installed, skipping installation." -/
  | alreadyInstalled
  /-- an instruction failed: `return` after logging the error -/
  | stoppedOnError
  /-- the whole instruction list ran -/
  | completed
deriving DecidableEq, Repr

/-- A worker's exit path together with the instructions it invoked, in
order. -/
structure WorkerRun where
  outcome : WorkerOutcome
  ran : List Instructions
deriving DecidableEq, Repr

/-- The prerequisite-check loop of `installer_thread`: run each check in
order; the first success returns immediately (skip), a failure moves on to the
next check.  Returns the checks invoked and whether one succeeded. -/
def runChecksUntilSuccess (w : World) (pf : Platform) (dry : Bool) :
    List Instructions → List Instructions × Bool
  | [] => ([], false)
  | c :: rest =>
    match (c.run w pf dry).1 with
    | .ok _ => ([c], true)
    | .error _ =>
      let (l, b) := runChecksUntilSuccess w pf dry rest
      (c :: l, b)

/-- The instruction loop shared by all phase workers: run each instruction in
order, stopping at the first failure.  Returns the instructions invoked and
whether the whole list succeeded. -/
def runListUntilFailure (w : World) (pf : Platform) (dry : Bool) :
    List Instructions → List Instructions × Bool
  | [] => ([], true)
  | i :: rest =>
    match (i.run w pf dry).1 with
    | .error _ => ([i], false)
    | .ok _ =>
      let (l, b) := runListUntilFailure w pf dry rest
      (i :: l, b)

namespace SoftwareBundle

/-- `SoftwareBundle::installer_thread`: look up the mapping (panicking when
absent), short-circuit on a successful prerequisite check, otherwise run the
install instructions stopping at the first failure. -/
def installer_thread (w : World) (pf : Platform) (program : Package) (os : OS)
    (dry : Bool) : WorkerRun :=
  match mapGet program.mapping os with
  | none => ⟨.panicked, []⟩
  | some commands =>
    let runInstalls (pre : List Instructions) : WorkerRun :=
      let (l, ok) := runListUntilFailure w pf dry commands.install_instructions.install
      ⟨if ok then .completed else .stoppedOnError, pre ++ l⟩
    if commands.prerequisite_checks.isEmpty then runInstalls []
    else
      let (checksRan, succeeded) :=
        runChecksUntilSuccess w pf dry commands.prerequisite_checks
      if succeeded then ⟨.alreadyInstalled, checksRan⟩
      else runInstalls checksRan

/-- `configurator_thread`: look up the mapping (panicking when absent) and run
the configuration instructions stopping at the first failure. -/
def configurator_thread (w : World) (pf : Platform) (program : Package)
    (os : OS) (dry : Bool) : WorkerRun :=
  match mapGet program.mapping os with
  | none => ⟨.panicked, []⟩
  | some commands =>
    let (l, ok) :=
      runListUntilFailure w pf dry commands.configuration_instructions.install
    ⟨if ok then .completed else .stoppedOnError, l⟩

/-- `uninstaller_thread`. -/
def uninstaller_thread (w : World) (pf : Platform) (program : Package)
    (os : OS) (dry : Bool) : WorkerRun :=
  match mapGet program.mapping os with
  | none => ⟨.panicked, []⟩
  | some commands =>
    let (l, ok) :=
      runListUntilFailure w pf dry commands.uninstall_instructions.install
    ⟨if ok then .completed else .stoppedOnError, l⟩

/-- `deconfigurator_thread`. -/
def deconfigurator_thread (w : World) (pf : Platform) (program : Package)
    (os : OS) (dry : Bool) : WorkerRun :=
  match mapGet program.mapping os with
  | none => ⟨.panicked, []⟩
  | some commands =>
    let (l, ok) :=
      runListUntilFailure w pf dry commands.deconfiguration_instructions.install
    ⟨if ok then .completed else .stoppedOnError, l⟩

/-- One phase of a bundle run: the phase name and the workers spawned for it,
by package name, with each worker's independently computed result (joining
never propagates errors or panics). -/
structure PhaseRun where
  phase : PhaseName
  workers : List (String × WorkerRun)
deriving DecidableEq, Repr

/-- `SoftwareBundle::installer`: spawn one worker per program —
unconditionally, with no emptiness or mapping check — join them all (logging
panics), and return `Ok`. -/
def installer (w : World) (pf : Platform) (b : SoftwareBundle) (os : OS)
    (dry : Bool) : Except ExecError Unit × PhaseRun :=
  (.ok (),
   ⟨.install,
    b.programs.map (fun p => (p.name, installer_thread w pf p os dry))⟩)

/-- Whether `configurator` spawns a worker for a program: a mapping for the
OS exists and its configuration list is non-empty. -/
def spawnsConfigure (os : OS) (p : Package) : Bool :=
  match mapGet p.mapping os with
  | some commands => !commands.configuration_instructions.install.isEmpty
  | none => false

/-- `SoftwareBundle::configurator`: spawn workers only for programs with a
mapping and a non-empty configuration list; join them all; return `Ok`. -/
def configurator (w : World) (pf : Platform) (b : SoftwareBundle) (os : OS)
    (dry : Bool) : Except ExecError Unit × PhaseRun :=
  (.ok (),
   ⟨.configure,
    (b.programs.filter (spawnsConfigure os)).map
      (fun p => (p.name, configurator_thread w pf p os dry))⟩)

/-- Whether `uninstaller` spawns a worker for a program. -/
def spawnsUninstall (os : OS) (p : Package) : Bool :=
  match mapGet p.mapping os with
  | some commands => !commands.uninstall_instructions.install.isEmpty
  | none => false

/-- `SoftwareBundle::uninstaller`: spawn workers only for programs with a
mapping and a non-empty uninstall list; join them all; return `Ok`. -/
def uninstaller (w : World) (pf : Platform) (b : SoftwareBundle) (os : OS)
    (dry : Bool) : Except ExecError Unit × PhaseRun :=
  (.ok (),
   ⟨.uninstall,
    (b.programs.filter (spawnsUninstall os)).map
      (fun p => (p.name, uninstaller_thread w pf p os dry))⟩)

/-- Whether `deconfigurator` spawns a worker for a program. -/
def spawnsDeconfigure (os : OS) (p : Package) : Bool :=
  match mapGet p.mapping os with
  | some commands => !commands.deconfiguration_instructions.install.isEmpty
  | none => false

/-- `SoftwareBundle::deconfigurator`. -/
def deconfigurator (w : World) (pf : Platform) (b : SoftwareBundle) (os : OS)
    (dry : Bool) : Except ExecError Unit × PhaseRun :=
  (.ok (),
   ⟨.deconfigure,
    (b.programs.filter (spawnsDeconfigure os)).map
      (fun p => (p.name, deconfigurator_thread w pf p os dry))⟩)

/-- `SoftwareBundle::install`: `self.installer(os, dry_run)?;
self.configurator(os, dry_run)?; Ok(())` — the phases it executed are
returned in order. -/
def install (w : World) (pf : Platform) (b : SoftwareBundle) (os : OS)
    (dry : Bool) : Except ExecError Unit × List PhaseRun :=
  match installer w pf b os dry with
  | (.error e, pr1) => (.error e, [pr1])
  | (.ok _, pr1) =>
    match configurator w pf b os dry with
    | (.error e, pr2) => (.error e, [pr1, pr2])
    | (.ok _, pr2) => (.ok (), [pr1, pr2])

/-- `SoftwareBundle::uninstall`: `self.uninstaller(os, dry_run)?;
self.deconfigurator(os, dry_run)?; Ok(())` — note that the source runs the
uninstall phase first, then the deconfigure phase. -/
def uninstall (w : World) (pf : Platform) (b : SoftwareBundle) (os : OS)
    (dry : Bool) : Except ExecError Unit × List PhaseRun :=
  match uninstaller w pf b os dry with
  | (.error e, pr1) => (.error e, [pr1])
  | (.ok _, pr1) =>
    match deconfigurator w pf b os dry with
    | (.error e, pr2) => (.error e, [pr1, pr2])
    | (.ok _, pr2) => (.ok (), [pr1, pr2])

end SoftwareBundle

/-! ## Concrete fixtures used by witnesses and counterexamples -/

/-- A fully permissive external world: every spawned command succeeds, every
file exists, every filesystem operation succeeds. -/
def testWorld : World where
  tempDir := "/tmp"
  envHome := some "/home/user"
  envUserProfile := some "C:\\Users\\user"
  now := 1700000000
  fileExists := fun _ => true
  statusOk := fun _ => true
  outputOk := fun _ => true
  outputStdout := fun _ => "git version 2.39"
  createDirOk := fun _ => true
  copyOk := fun _ _ => true
  removeOk := fun _ => true
  readFile := fun _ => some ""
  writeOk := fun _ => true
  appendOk := fun _ => true

/-- Like `testWorld`, but no file exists. -/
def missWorld : World :=
  { testWorld with fileExists := fun _ => false }

/-- Like `testWorld`, but the command `failcmd` exits non-zero and the command
`checkfail` fails its `output()` status, so `Run ["failcmd"]` and
`Assert ["checkfail"] _` fail while everything else succeeds. -/
def mixedWorld : World :=
  { testWorld with
    statusOk := fun c => c != ["failcmd"]
    outputOk := fun c => c != ["checkfail"] }

/-- A prerequisite check that fails under `mixedWorld`. -/
def assertFailing : Instructions := .Assert ⟨["checkfail"], "x"⟩

/-- A prerequisite check that succeeds under `mixedWorld` (the empty expected
substring is contained in any output). -/
def assertPassing : Instructions := .Assert ⟨["git", "--version"], ""⟩

/-- A package whose single install instruction fails under `mixedWorld`. -/
def pkgFailing : Package :=
  (Package.new "failing" "its install instruction fails").add_mapping
    (OsMatcher.new [⟨.Ubuntu⟩])
    (InstructionMapping.new.add_install_instructions [.Run ⟨["failcmd"]⟩])

/-- A package whose single install instruction succeeds under `mixedWorld`. -/
def pkgOk : Package :=
  (Package.new "ok" "its install instruction succeeds").add_mapping
    (OsMatcher.new [⟨.Ubuntu⟩])
    (InstructionMapping.new.add_install_instructions [.Run ⟨["echo", "hi"]⟩])

/-- A two-package bundle in which one package fails and the other succeeds. -/
def demoBundle : SoftwareBundle :=
  ⟨"demo", "one failing and one succeeding package", [pkgFailing, pkgOk]⟩

/-- A package that has a mapping for Ubuntu whose five instruction lists are
all empty. -/
def pkgEmptyLists : Package :=
  (Package.new "noop" "mapping with empty instruction lists").add_mapping
    (OsMatcher.new [⟨.Ubuntu⟩]) InstructionMapping.new

/-- A bundle holding only `pkgEmptyLists`. -/
def emptyListsBundle : SoftwareBundle :=
  ⟨"empty", "bundle of one package with empty lists", [pkgEmptyLists]⟩

/-- A bundle with one package that has both an uninstall and a deconfigure
instruction, to observe the phase order of `SoftwareBundle::uninstall`. -/
def uninstallDemoBundle : SoftwareBundle :=
  ⟨"uninstall-demo", "package with uninstall and deconfigure steps",
   [(Package.new "tool" "has both reverse phases").add_mapping
      (OsMatcher.new [⟨.Ubuntu⟩])
      ((InstructionMapping.new.add_uninstall_instructions
          [.Run ⟨["rm", "tool"]⟩]).add_deconfiguration_instructions
          [.Run ⟨["rm", "toolrc"]⟩])]⟩


/-- A mapping with two prerequisite checks (the first failing, the second
passing under `mixedWorld`) and one install instruction, built through the
builder API. -/
def checksMapping : InstructionMapping :=
  ((InstructionMapping.new.add_prerequisite_checks
      [assertFailing, assertPassing]).getD
    InstructionMapping.new).add_install_instructions [.Run ⟨["echo", "install"]⟩]

/-- A package carrying `checksMapping` for Ubuntu. -/
def pkgWithChecks : Package :=
  (Package.new "node" "guarded by prerequisite checks").add_mapping
    (OsMatcher.new [⟨.Ubuntu⟩]) checksMapping

/-- The input validations that the source performs before its dry-run check:
`Run` and `Assert` reject an empty command vector, and `ExtractArchive`
rejects a path without a file extension, in each case before `dry_run` is
consulted. -/
def dryRunValidationFails : Instructions → Bool
  | .Run r => r.command.isEmpty
  | .Assert a => a.command.isEmpty
  | .ExtractArchive e => (extensionOf e.archive_path).isNone
  | _ => false

/-- The archive extensions `ExtractArchive::run` supports (lowercased). -/
def supportedArchiveExts : List String :=
  ["zip", "gz", "tgz", "bz2", "tbz2", "xz", "txz"]

deriving instance DecidableEq for Except

/-- An instruction run succeeds (returns `Ok`). -/
def instrOk (w : World) (pf : Platform) (dry : Bool) (i : Instructions) : Prop :=
  (i.run w pf dry).1 = .ok ()

instance (w : World) (pf : Platform) (dry : Bool) (i : Instructions) :
    Decidable (instrOk w pf dry i) := by
  unfold instrOk; infer_instance

/-- A download-and-execute of a `.zip`, which the run rejects. -/
def zipInstaller : DownloadAndExec :=
  ⟨"https://example.com/tool.zip", false, none⟩

/-- A download-and-execute of an extensionless Unix installer. -/
def plainInstaller : DownloadAndExec :=
  ⟨"https://example.com/installer", false, none⟩

/-! ## Theorems -/

/-- Helper: matcher membership coincides with list membership. -/
theorem OsMatcher.osMatches_iff_mem (l : List OS) (os : OS) :
    (OsMatcher.new l).osMatches os = true ↔ os ∈ l := by
  constructor
  · intro h
    rcases List.any_eq_true.mp h with ⟨o, hmem, hbeq⟩
    have : o.ty = os.ty := by exact beq_iff_eq.mp hbeq
    have : o = os := by cases o; cases os; simp_all
    simpa [this] using hmem
  · intro h
    exact List.any_eq_true.mpr ⟨os, h, by simp⟩

/-- C8: the OS matcher answers membership in the category lists:
`from_category(DebianBased)` matches Ubuntu, `from_category(RHELBased)` does
not match Ubuntu, `from_categories([ArchBased, GentooBased])` matches Gentoo,
and `from_categories([])` matches no OS at all. -/
theorem c8_os_matcher_correct :
    (OsMatcher.from_category .DebianBased).osMatches ⟨.Ubuntu⟩ = true ∧
    (OsMatcher.from_category .RHELBased).osMatches ⟨.Ubuntu⟩ = false ∧
    (OsMatcher.from_categories [.ArchBased, .GentooBased]).osMatches ⟨.Gentoo⟩ = true ∧
    ∀ os : OS, (OsMatcher.from_categories []).osMatches os = false := by
  refine ⟨by decide, by decide, by decide, ?_⟩
  intro os
  rfl


/-- C10: a `BackupFile` instruction run with `dry_run = false` on a path that
does not exist returns `Ok` and performs no effect at all — a missing source
file means "nothing to back up", not an error. -/
theorem c10_backup_missing_file_is_ok (b : BackupFile) (w : World)
    (pf : Platform) (h : w.fileExists b.path = false) :
    (Instructions.BackupFile b).run w pf false = (.ok (), []) := by
  simp [Instructions.run, BackupFile.run, h]

/-- Witness for C10 at a concrete path in a world where no file exists. -/
theorem c10_backup_missing_file_is_ok_witness :
    (Instructions.BackupFile ⟨"/etc/absent.conf"⟩).run missWorld .unix false
      = (.ok (), []) :=
  c10_backup_missing_file_is_ok ⟨"/etc/absent.conf"⟩ missWorld .unix rfl

/-- C2 (refuting the claimed order): for every bundle, world, OS and dry-run
flag, `SoftwareBundle::uninstall` executes the uninstall phase first and the
deconfigure phase second — the opposite of the deconfigure-before-uninstall
order stated by the specification and by the struct's own documentation
comment ("1. Deconfiguration Phase … 2. Uninstallation Phase"). -/
theorem c2_uninstall_phase_order (w : World) (pf : Platform)
    (b : SoftwareBundle) (os : OS) (dry : Bool) :
    ((SoftwareBundle.uninstall w pf b os dry).2).map SoftwareBundle.PhaseRun.phase
      = [PhaseName.uninstall, PhaseName.deconfigure] := rfl

/-- C5 (counterexample): the install phase spawns a worker even for a package
whose install-instruction list for the current OS is empty — `installer`
spawns unconditionally, so `pkgEmptyLists` gets a worker despite its empty
install list. -/
theorem c5_counterexample_installer_spawns_for_empty_list :
    ((SoftwareBundle.installer testWorld .unix emptyListsBundle ⟨.Ubuntu⟩
        true).2.workers.map Prod.fst) = ["noop"] := rfl

/-- C5 (amended): the configure, uninstall and deconfigure phases spawn a
worker exactly for the packages that have a mapping for the current OS with a
non-empty instruction list for the phase; the install phase instead spawns one
worker per package of the bundle, unconditionally. -/
theorem c5_amended_spawn_policy (w : World) (pf : Platform)
    (b : SoftwareBundle) (os : OS) (dry : Bool) :
    (SoftwareBundle.installer w pf b os dry).2.workers.map Prod.fst
        = b.programs.map Package.name ∧
    (SoftwareBundle.configurator w pf b os dry).2.workers.map Prod.fst
        = (b.programs.filter (SoftwareBundle.spawnsConfigure os)).map Package.name ∧
    (SoftwareBundle.uninstaller w pf b os dry).2.workers.map Prod.fst
        = (b.programs.filter (SoftwareBundle.spawnsUninstall os)).map Package.name ∧
    (SoftwareBundle.deconfigurator w pf b os dry).2.workers.map Prod.fst
        = (b.programs.filter (SoftwareBundle.spawnsDeconfigure os)).map Package.name := by
  refine ⟨?_, ?_, ?_, ?_⟩ <;>
    simp [SoftwareBundle.installer, SoftwareBundle.configurator,
      SoftwareBundle.uninstaller, SoftwareBundle.deconfigurator,
      List.map_map, Function.comp]

/-- C9: the builder keeps the prerequisite-check invariant.  Passing any
non-`Assert` instruction to `add_prerequisite_checks` fails fast at
construction time (the panic, modelled as `none`), and every mapping reachable
through the builder API has only `Assert` instructions among its prerequisite
checks. -/
theorem c9_prerequisite_checks_assert_only :
    (∀ (m : InstructionMapping) (checks : List Instructions),
      (∃ c ∈ checks, InstructionMapping.isAssert c = false) →
      m.add_prerequisite_checks checks = none) ∧
    (∀ m : InstructionMapping, ReachableMapping m →
      m.prerequisite_checks.all InstructionMapping.isAssert = true) := by
  constructor
  · rintro m checks ⟨c, hc, hfalse⟩
    rw [InstructionMapping.add_prerequisite_checks]
    cases h : checks.all InstructionMapping.isAssert with
    | false => simp [h]
    | true =>
      have := List.all_eq_true.mp h c hc
      rw [hfalse] at this
      exact absurd this (by simp)
  · intro m hm
    induction hm with
    | new => rfl
    | prereq hr heq ih =>
      rw [InstructionMapping.add_prerequisite_checks] at heq
      split at heq
      case isTrue hall =>
        cases heq
        simpa [List.all_append, hall] using ih
      case isFalse => exact absurd heq (by simp)
    | install hr ih => simpa [InstructionMapping.add_install_instructions] using ih
    | uninstallI hr ih => simpa [InstructionMapping.add_uninstall_instructions] using ih
    | configure hr ih => simpa [InstructionMapping.add_configuration_instructions] using ih
    | deconfigure hr ih => simpa [InstructionMapping.add_deconfiguration_instructions] using ih

/-- Witness for C9: a concrete `Run` instruction is rejected as a prerequisite
check, and the mapping produced by `new` (reachable) satisfies the
invariant. -/
theorem c9_prerequisite_checks_assert_only_witness :
    InstructionMapping.new.add_prerequisite_checks [.Run ⟨["ls"]⟩] = none ∧
    InstructionMapping.new.prerequisite_checks.all InstructionMapping.isAssert = true :=
  ⟨c9_prerequisite_checks_assert_only.1 InstructionMapping.new [.Run ⟨["ls"]⟩]
      ⟨.Run ⟨["ls"]⟩, by simp, rfl⟩,
   c9_prerequisite_checks_assert_only.2 InstructionMapping.new ReachableMapping.new⟩

/-- C4: bundle-level failure isolation.  For every world, platform, bundle,
OS and dry-run flag, `SoftwareBundle::install` returns `Ok` — a per-package
instruction failure or worker panic never propagates to the caller — and every
package of the bundle gets its own install-phase worker whose result is
computed from that package alone, so one package's failure cannot prevent
another package's worker from running. -/
theorem c4_install_failure_isolation (w : World) (pf : Platform)
    (b : SoftwareBundle) (os : OS) (dry : Bool) :
    (SoftwareBundle.install w pf b os dry).1 = .ok () ∧
    ∀ p ∈ b.programs,
      ∃ pr ∈ (SoftwareBundle.install w pf b os dry).2,
        pr.phase = PhaseName.install ∧
        (p.name, SoftwareBundle.installer_thread w pf p os dry) ∈ pr.workers := by
  constructor
  · rfl
  · intro p hp
    refine ⟨(SoftwareBundle.installer w pf b os dry).2, ?_, rfl, ?_⟩
    · simp [SoftwareBundle.install, SoftwareBundle.installer,
        SoftwareBundle.configurator]
    · exact List.mem_map.mpr ⟨p, hp, rfl⟩

/-- Witness for C4: in `demoBundle` the package `failing` stops on an error
under `mixedWorld`, yet the bundle-level install returns `Ok` and the package
`ok` still gets a worker that completes. -/
theorem c4_install_failure_isolation_witness :
    (SoftwareBundle.installer_thread mixedWorld .unix pkgFailing ⟨.Ubuntu⟩
        false).outcome = .stoppedOnError ∧
    (SoftwareBundle.install mixedWorld .unix demoBundle ⟨.Ubuntu⟩ false).1 = .ok () ∧
    ∃ pr ∈ (SoftwareBundle.install mixedWorld .unix demoBundle ⟨.Ubuntu⟩ false).2,
      pr.phase = PhaseName.install ∧
      (pkgOk.name, SoftwareBundle.installer_thread mixedWorld .unix pkgOk ⟨.Ubuntu⟩
          false) ∈ pr.workers := by
  obtain ⟨h1, h2⟩ :=
    c4_install_failure_isolation mixedWorld .unix demoBundle ⟨.Ubuntu⟩ false
  exact ⟨by decide, h1, h2 pkgOk (by simp [demoBundle])⟩

/-- C1 (counterexample): a `Run` instruction built from an empty command
string (reachable through the public builder as `Instruction::new(…).cmd("")`)
returns an error, not success, when executed with `dry_run = true` — the
empty-command validation precedes the dry-run check. -/
theorem c1_counterexample_empty_cmd_dry_run_errors :
    (((Instruction.new "noop").cmd "").run testWorld .unix true).1
      = .error .emptyCommand := rfl

/-- C1 (amended): running any instruction with `dry_run = true` performs no
observable side effect (no spawn, hence no network call, and no filesystem
operation — only console output), and returns `Ok` unless one of the
validations that precede the dry-run check fails: an empty command in `Run`
or `Assert`, or a missing file extension in `ExtractArchive`. -/
theorem c1_amended_dry_run_purity (i : Instructions) (w : World)
    (pf : Platform) :
    (∀ e ∈ (i.run w pf true).2, e.observable = false) ∧
    (dryRunValidationFails i = false → (i.run w pf true).1 = .ok ()) := by
  cases i with
  | DownloadAndExec d =>
    simp [Instructions.run, DownloadAndExec.run, dryRunValidationFails,
      Effect.observable]
  | Run r =>
    by_cases hc : r.command = [] <;>
      simp [Instructions.run, Run.run, dryRunValidationFails, hc,
        Effect.observable, List.isEmpty_iff]
  | DownloadTo d =>
    simp [Instructions.run, DownloadTo.run, dryRunValidationFails,
      Effect.observable]
  | Assert a =>
    by_cases hc : a.command = [] <;>
      simp [Instructions.run, Assert.run, dryRunValidationFails, hc,
        Effect.observable, List.isEmpty_iff]
  | ExtractArchive e =>
    cases hx : extensionOf e.archive_path <;>
      simp [Instructions.run, ExtractArchive.run, dryRunValidationFails, hx,
        Effect.observable]
  | AddEnvVar a =>
    simp [Instructions.run, AddEnvVar.run, dryRunValidationFails,
      Effect.observable]
  | CreateShortcut c =>
    simp [Instructions.run, CreateShortcut.run, dryRunValidationFails,
      Effect.observable]
  | WaitForCondition wc =>
    simp [Instructions.run, WaitForCondition.run, dryRunValidationFails,
      Effect.observable]
  | InstallApplication ia =>
    simp [Instructions.run, InstallApplication.run, dryRunValidationFails,
      Effect.observable]
  | InstallPackage ip =>
    simp [Instructions.run, InstallPackage.run, dryRunValidationFails,
      Effect.observable]
  | CloneRepository c =>
    simp [Instructions.run, CloneRepository.run, dryRunValidationFails,
      Effect.observable]
  | RequestSudo r =>
    simp [Instructions.run, RequestSudo.run, dryRunValidationFails,
      Effect.observable]
  | RestartService rs =>
    simp [Instructions.run, RestartService.run, dryRunValidationFails,
      Effect.observable]
  | BackupFile b =>
    simp [Instructions.run, BackupFile.run, dryRunValidationFails,
      Effect.observable]
  | EditFile e =>
    simp [Instructions.run, EditFile.run, dryRunValidationFails,
      Effect.observable]

/-- Witness for the amended C1 at a concrete instruction: a dry run of
`RequestSudo` succeeds. -/
theorem c1_amended_dry_run_purity_witness :
    ((Instructions.RequestSudo ⟨"demo"⟩).run testWorld .unix true).1 = .ok () :=
  (c1_amended_dry_run_purity (.RequestSudo ⟨"demo"⟩) testWorld .unix).2 rfl

/-- Helper: when every check fails, the prerequisite loop runs them all and
reports no success. -/
theorem runChecks_none (w : World) (pf : Platform) (dry : Bool) :
    ∀ l : List Instructions, (∀ c ∈ l, ¬instrOk w pf dry c) →
    runChecksUntilSuccess w pf dry l = (l, false) := by
  intro l
  induction l with
  | nil => intro _; rfl
  | cons c rest ih =>
    intro h
    have hc : ¬instrOk w pf dry c := h c (by simp)
    rw [runChecksUntilSuccess]
    cases hr : (c.run w pf dry).1 with
    | ok u => exact absurd (by cases u; exact hr) hc
    | error e =>
      rw [ih (fun x hx => h x (by simp [hx]))]

/-- Helper: when the check at index `k` is the first to succeed, the
prerequisite loop runs exactly the first `k + 1` checks and reports
success. -/
theorem runChecks_first_success (w : World) (pf : Platform) (dry : Bool) :
    ∀ (l : List Instructions) (k : Nat) (hk : k < l.length),
    (∀ j, ∀ hj : j < l.length, j < k → ¬instrOk w pf dry (l.get ⟨j, hj⟩)) →
    instrOk w pf dry (l.get ⟨k, hk⟩) →
    runChecksUntilSuccess w pf dry l = (l.take (k + 1), true) := by
  intro l
  induction l with
  | nil => intro k hk; exact absurd hk (by simp)
  | cons c rest ih =>
    intro k hk hbefore hsucc
    cases k with
    | zero =>
      rw [runChecksUntilSuccess]
      cases hr : (c.run w pf dry).1 with
      | ok u => simp
      | error e =>
        exact absurd hsucc (by simp [instrOk, List.get, hr])
    | succ k =>
      have hc : ¬instrOk w pf dry c := hbefore 0 (by simp) (by omega)
      rw [runChecksUntilSuccess]
      cases hr : (c.run w pf dry).1 with
      | ok u => exact absurd (by cases u; exact hr) hc
      | error e =>
        have := ih k (by simpa using hk)
          (fun j hj hjk => hbefore (j + 1) (by simpa using hj) (by omega))
          (by simpa using hsucc)
        simp [this]

/-- Helper: when every instruction succeeds, the phase loop runs the whole
list and reports success. -/
theorem runList_all_ok (w : World) (pf : Platform) (dry : Bool) :
    ∀ l : List Instructions, (∀ i ∈ l, instrOk w pf dry i) →
    runListUntilFailure w pf dry l = (l, true) := by
  intro l
  induction l with
  | nil => intro _; rfl
  | cons c rest ih =>
    intro h
    have hc : instrOk w pf dry c := h c (by simp)
    rw [runListUntilFailure]
    cases hr : (c.run w pf dry).1 with
    | ok u => rw [ih (fun x hx => h x (by simp [hx]))]
    | error e =>
      have hc2 : (c.run w pf dry).1 = .ok () := hc
      rw [hc2] at hr
      cases hr

/-- Helper: when the instruction at index `k` is the first to fail, the phase
loop runs exactly the first `k + 1` instructions and reports failure — later
instructions in the list are not attempted. -/
theorem runList_stops_at_first_failure (w : World) (pf : Platform) (dry : Bool) :
    ∀ (l : List Instructions) (k : Nat) (hk : k < l.length),
    (∀ j, ∀ hj : j < l.length, j < k → instrOk w pf dry (l.get ⟨j, hj⟩)) →
    ¬instrOk w pf dry (l.get ⟨k, hk⟩) →
    runListUntilFailure w pf dry l = (l.take (k + 1), false) := by
  intro l
  induction l with
  | nil => intro k hk; exact absurd hk (by simp)
  | cons c rest ih =>
    intro k hk hbefore hfail
    cases k with
    | zero =>
      rw [runListUntilFailure]
      cases hr : (c.run w pf dry).1 with
      | ok u => exact absurd (by cases u; exact hr) (by simpa [List.get] using hfail)
      | error e => simp
    | succ k =>
      have hc : instrOk w pf dry c := hbefore 0 (by simp) (by omega)
      rw [runListUntilFailure]
      cases hr : (c.run w pf dry).1 with
      | error e =>
        have hc2 : (c.run w pf dry).1 = .ok () := hc
        rw [hc2] at hr
        cases hr
      | ok u =>
        have := ih k (by simpa using hk)
          (fun j hj hjk => hbefore (j + 1) (by simpa using hj) (by omega))
          (by simpa using hfail)
        simp [this]

/-- Helper: when some check in the list succeeds, the prerequisite loop
reports success and the checks it invoked are a prefix of the list. -/
theorem runChecks_exists_success (w : World) (pf : Platform) (dry : Bool) :
    ∀ l : List Instructions, (∃ c ∈ l, instrOk w pf dry c) →
    (runChecksUntilSuccess w pf dry l).2 = true ∧
    ∃ n, (runChecksUntilSuccess w pf dry l).1 = l.take n := by
  intro l
  induction l with
  | nil => rintro ⟨c, hc, _⟩; exact absurd hc (by simp)
  | cons c rest ih =>
    rintro ⟨x, hx, hok⟩
    rw [runChecksUntilSuccess]
    cases hr : (c.run w pf dry).1 with
    | ok u => exact ⟨rfl, 1, by simp⟩
    | error e =>
      have hxrest : x ∈ rest := by
        rcases List.mem_cons.mp hx with hxc | hxr
        · subst hxc
          have : (x.run w pf dry).1 = .ok () := hok
          rw [this] at hr
          cases hr
        · exact hxr
      obtain ⟨h2, n, h1⟩ := ih ⟨x, hxrest, hok⟩
      rcases hrw : runChecksUntilSuccess w pf dry rest with ⟨l', b'⟩
      rw [hrw] at h2 h1
      exact ⟨by simpa using h2, n + 1, by simpa using h1⟩

/-- C3: the prerequisite short-circuit of the install worker.  Under a mapping
with a non-empty prerequisite-check list: if any check succeeds, the worker
reports the package as already installed and only ever ran a prefix of the
check list (no install instruction); if every check fails, the worker runs all
checks and then the install instructions in order — all of them when all
succeed, and exactly up to and including the first failing one otherwise. -/
theorem c3_prerequisite_short_circuit (w : World) (pf : Platform) (p : Package)
    (os : OS) (dry : Bool) (m : InstructionMapping)
    (hmap : mapGet p.mapping os = some m)
    (hne : m.prerequisite_checks ≠ []) :
    ((∃ c ∈ m.prerequisite_checks, instrOk w pf dry c) →
      (SoftwareBundle.installer_thread w pf p os dry).outcome
          = .alreadyInstalled ∧
      ∃ n, (SoftwareBundle.installer_thread w pf p os dry).ran
          = m.prerequisite_checks.take n) ∧
    ((∀ c ∈ m.prerequisite_checks, ¬instrOk w pf dry c) →
      ((∀ i ∈ m.install_instructions.install, instrOk w pf dry i) →
        SoftwareBundle.installer_thread w pf p os dry
          = ⟨.completed,
             m.prerequisite_checks ++ m.install_instructions.install⟩) ∧
      (∀ (k : Nat) (hk : k < m.install_instructions.install.length),
        (∀ j, ∀ hj : j < m.install_instructions.install.length, j < k →
          instrOk w pf dry (m.install_instructions.install.get ⟨j, hj⟩)) →
        ¬instrOk w pf dry (m.install_instructions.install.get ⟨k, hk⟩) →
        SoftwareBundle.installer_thread w pf p os dry
          = ⟨.stoppedOnError,
             m.prerequisite_checks ++
               m.install_instructions.install.take (k + 1)⟩)) := by
  have hie : m.prerequisite_checks.isEmpty = false := by
    cases hpc : m.prerequisite_checks with
    | nil => exact absurd hpc hne
    | cons a b => rfl
  constructor
  · intro hex
    obtain ⟨h2, n, h1⟩ := runChecks_exists_success w pf dry _ hex
    have heq : runChecksUntilSuccess w pf dry m.prerequisite_checks
        = (m.prerequisite_checks.take n, true) := by
      rcases hrw : runChecksUntilSuccess w pf dry m.prerequisite_checks with ⟨l', b'⟩
      rw [hrw] at h2 h1
      simp at h2 h1
      simp [h2, h1]
    refine ⟨?_, n, ?_⟩ <;>
      simp [SoftwareBundle.installer_thread, hmap, hie, heq]
  · intro hall
    have heq : runChecksUntilSuccess w pf dry m.prerequisite_checks
        = (m.prerequisite_checks, false) := runChecks_none w pf dry _ hall
    constructor
    · intro hinst
      have hlist : runListUntilFailure w pf dry m.install_instructions.install
          = (m.install_instructions.install, true) := runList_all_ok w pf dry _ hinst
      simp [SoftwareBundle.installer_thread, hmap, hie, heq, hlist]
    · intro k hk hbefore hfail
      have hlist : runListUntilFailure w pf dry m.install_instructions.install
          = (m.install_instructions.install.take (k + 1), false) :=
        runList_stops_at_first_failure w pf dry _ k hk hbefore hfail
      simp [SoftwareBundle.installer_thread, hmap, hie, heq, hlist]

/-- Witness for C3 at `pkgWithChecks` under `mixedWorld`: the second
prerequisite check passes, so the worker reports the package as already
installed and ran only a prefix of the check list. -/
theorem c3_prerequisite_short_circuit_witness :
    (SoftwareBundle.installer_thread mixedWorld .unix pkgWithChecks ⟨.Ubuntu⟩
        false).outcome = .alreadyInstalled ∧
    ∃ n, (SoftwareBundle.installer_thread mixedWorld .unix pkgWithChecks
        ⟨.Ubuntu⟩ false).ran = checksMapping.prerequisite_checks.take n :=
  (c3_prerequisite_short_circuit mixedWorld .unix pkgWithChecks ⟨.Ubuntu⟩ false
      checksMapping rfl (by decide)).1
    ⟨assertPassing, by decide, by decide⟩

/-- Helper: the extraction dispatch finds no tool exactly for extensions
outside the supported set. -/
theorem extractToolCmd_none_iff (ext a d : String) :
    extractToolCmd ext a d = none ↔ ext ∉ supportedArchiveExts := by
  unfold extractToolCmd supportedArchiveExts
  split_ifs with h1 h2 h3 h4 <;> simp_all <;> tauto

/-- C6 (counterexample): extracting `x.rar` with `dry_run = false` does
return the unsupported-archive-format error, but only after
`fs::create_dir_all("/dest")` has already run — the destination directory is
created, contradicting "without touching the filesystem". -/
theorem c6_counterexample_unsupported_ext_creates_dir :
    (Instructions.ExtractArchive ⟨"x.rar", "/dest"⟩).run testWorld .unix false
      = (.error (.unsupportedArchiveFormat "rar"),
         [.fsCreateDir "/dest"]) := by decide

/-- C6 (amended): with `dry_run = false`, `ExtractArchive` first creates the
destination directory and only then dispatches on the lowercased extension:
an unsupported extension yields the unsupported-archive-format error with the
directory already created, and a supported extension invokes the matching
extraction tool after creating the directory. -/
theorem c6_amended_extract_archive (e : ExtractArchive) (w : World)
    (pf : Platform) (ext : String)
    (hext : extensionOf e.archive_path = some ext)
    (hdir : w.createDirOk e.destination = true) :
    (lowerString ext ∉ supportedArchiveExts →
      (Instructions.ExtractArchive e).run w pf false
        = (.error (.unsupportedArchiveFormat ext),
           [.fsCreateDir e.destination])) ∧
    (lowerString ext ∈ supportedArchiveExts →
      ∃ cmd, extractToolCmd (lowerString ext) e.archive_path e.destination
          = some cmd ∧
        (Instructions.ExtractArchive e).run w pf false
          = (.ok (), [.fsCreateDir e.destination, .spawn cmd])) := by
  constructor
  · intro hn
    have hnone : extractToolCmd (lowerString ext) e.archive_path e.destination
        = none := (extractToolCmd_none_iff _ _ _).mpr hn
    simp [Instructions.run, ExtractArchive.run, hext, hdir, hnone]
  · intro hm
    cases hcmd : extractToolCmd (lowerString ext) e.archive_path e.destination with
    | none => exact absurd ((extractToolCmd_none_iff _ _ _).mp hcmd) (by simpa using hm)
    | some cmd =>
      exact ⟨cmd, rfl,
        by simp [Instructions.run, ExtractArchive.run, hext, hdir, hcmd]⟩

/-- Witness for the amended C6: extracting `x.tar.gz` to `/dest` creates the
directory and invokes the gzip-tar tool. -/
theorem c6_amended_extract_archive_witness :
    ∃ cmd, extractToolCmd (lowerString "gz") "x.tar.gz" "/dest" = some cmd ∧
      (Instructions.ExtractArchive ⟨"x.tar.gz", "/dest"⟩).run testWorld .unix
          false = (.ok (), [.fsCreateDir "/dest", .spawn cmd]) :=
  (c6_amended_extract_archive ⟨"x.tar.gz", "/dest"⟩ testWorld .unix "gz"
      (by decide) rfl).2 (by decide)

/-- C7 (counterexample): a download-and-execute of a `.zip` with
`dry_run = false` downloads the file, rejects it, and returns without ever
removing the temporary file — even though it exists (`testWorld` reports
every file as existing). -/
theorem c7_counterexample_zip_leaves_temp_file :
    ((Instructions.DownloadAndExec zipInstaller).run testWorld .unix false).1
        = .error .zipMustBeExtracted ∧
    Effect.fsRemove (zipInstaller.tempPath testWorld) ∉
      ((Instructions.DownloadAndExec zipInstaller).run testWorld .unix
          false).2 := by decide

/-- Helper: the silent-retry loop emits only `spawn` effects, never a file
removal. -/
theorem fsRemove_not_mem_silentRetrySpawns (w : World) (fp p : String) :
    ∀ l : List (List String), Effect.fsRemove p ∉ silentRetrySpawns w fp l := by
  intro l
  induction l with
  | nil => simp [silentRetrySpawns]
  | cons f rest ih =>
    rw [silentRetrySpawns]
    split_ifs <;> simp_all

/-- Helper: the cleanup epilogue adds a removal of the temporary file only
when the file exists and the removal succeeds, in which case the result is
`Ok`; so if the incoming effects contain no removal, a removal in the output
certifies the success path and the file's existence. -/
theorem cleanupDownload_remove_mem (w : World) (fp : String)
    (effs : List Effect) (h : Effect.fsRemove fp ∉ effs) :
    Effect.fsRemove fp ∈ (cleanupDownload w fp effs).2 →
    (cleanupDownload w fp effs).1 = .ok () ∧ w.fileExists fp = true := by
  unfold cleanupDownload
  split_ifs with h1 h2 <;> simp_all

/-- C7 (amended): the temporary file is deleted only on the fall-through
success path, and only if it still exists: a removal among the effects
certifies that the run returned `Ok` and that the file existed (first
conjunct, over every parameterization, platform and world).  After a
successful download, every early-return error outcome leaves the file in
place: a rejected `.zip`, an unsupported file type, each platform mismatch
(`.exe`/`.msi` on Unix, an extensionless executable on Windows), and a failed
execution (with any `custom_args`); and on the success path with the file
still present and removable, the run returns `Ok` and does remove it. -/
theorem c7_amended_cleanup_only_on_success (d : DownloadAndExec) (w : World)
    (pf : Platform) :
    (Effect.fsRemove (d.tempPath w) ∈ (d.run w pf false).2 →
      (d.run w pf false).1 = .ok () ∧ w.fileExists (d.tempPath w) = true) ∧
    (w.outputOk ["curl", "-L", "-o", d.tempPath w, d.url] = true →
      (lowerString (Option.getD (extensionOf (d.tempPath w)) "") = "zip" →
        (d.run w pf false).1 = .error .zipMustBeExtracted ∧
        Effect.fsRemove (d.tempPath w) ∉ (d.run w pf false).2) ∧
      (lowerString (Option.getD (extensionOf (d.tempPath w)) "")
          ∉ (["exe", "msi", "", "zip"] : List String) →
        (d.run w pf false).1 = .error .unsupportedFileType ∧
        Effect.fsRemove (d.tempPath w) ∉ (d.run w pf false).2) ∧
      (pf = .unix →
        lowerString (Option.getD (extensionOf (d.tempPath w)) "") = "exe" →
        (d.run w pf false).1 = .error .exeOnlyOnWindows ∧
        Effect.fsRemove (d.tempPath w) ∉ (d.run w pf false).2) ∧
      (pf = .unix →
        lowerString (Option.getD (extensionOf (d.tempPath w)) "") = "msi" →
        (d.run w pf false).1 = .error .msiOnlyOnWindows ∧
        Effect.fsRemove (d.tempPath w) ∉ (d.run w pf false).2) ∧
      (pf = .windows →
        lowerString (Option.getD (extensionOf (d.tempPath w)) "") = "" →
        (d.run w pf false).1 = .error .unixExecutableOnly ∧
        Effect.fsRemove (d.tempPath w) ∉ (d.run w pf false).2) ∧
      (pf = .unix →
        lowerString (Option.getD (extensionOf (d.tempPath w)) "") = "" →
        w.statusOk (d.tempPath w :: d.custom_args.getD []) = false →
        (d.run w pf false).1 = .error .executionFailed ∧
        Effect.fsRemove (d.tempPath w) ∉ (d.run w pf false).2) ∧
      (pf = .unix →
        lowerString (Option.getD (extensionOf (d.tempPath w)) "") = "" →
        w.statusOk (d.tempPath w :: d.custom_args.getD []) = true →
        w.fileExists (d.tempPath w) = true →
        w.removeOk (d.tempPath w) = true →
        (d.run w pf false).1 = .ok () ∧
        Effect.fsRemove (d.tempPath w) ∈ (d.run w pf false).2)) := by
  constructor
  · intro hmem
    rw [DownloadAndExec.run] at hmem ⊢
    unfold cleanupDownload at hmem ⊢
    simp only [Bool.false_eq_true, if_false] at hmem ⊢
    repeat' split at hmem
    all_goals simp_all [fsRemove_not_mem_silentRetrySpawns]
  · intro hcurl
    refine ⟨?_, ?_, ?_, ?_, ?_, ?_, ?_⟩
    · intro hz
      simp [DownloadAndExec.run, hcurl, hz]
    · intro hn
      simp only [List.mem_cons, List.mem_singleton, List.not_mem_nil] at hn
      push_neg at hn
      obtain ⟨h1, h2, h3, h4⟩ := hn
      simp [DownloadAndExec.run, hcurl, h1, h2, h3, h4]
    · rintro rfl hz
      simp [DownloadAndExec.run, hcurl, hz]
    · rintro rfl hz
      simp [DownloadAndExec.run, hcurl, hz]
    · rintro rfl hz
      simp [DownloadAndExec.run, hcurl, hz]
    · rintro rfl hz hst
      cases hca : d.custom_args with
      | none =>
        simp only [hca, Option.getD_none] at hst
        simp [DownloadAndExec.run, hcurl, hz, hca, hst]
      | some a =>
        simp only [hca, Option.getD_some] at hst
        simp [DownloadAndExec.run, hcurl, hz, hca, hst]
    · rintro rfl hz hst hex hrm
      cases hca : d.custom_args with
      | none =>
        simp only [hca, Option.getD_none] at hst
        simp [DownloadAndExec.run, cleanupDownload, hcurl, hz, hca, hst,
          hex, hrm]
      | some a =>
        simp only [hca, Option.getD_some] at hst
        simp [DownloadAndExec.run, cleanupDownload, hcurl, hz, hca, hst,
          hex, hrm]

/-- Witness for the amended C7: an extensionless installer that executes
successfully has its temporary file removed, and the run returns `Ok`. -/
theorem c7_amended_cleanup_only_on_success_witness :
    (plainInstaller.run testWorld .unix false).1 = .ok () ∧
    Effect.fsRemove (plainInstaller.tempPath testWorld) ∈
      (plainInstaller.run testWorld .unix false).2 :=
  ((c7_amended_cleanup_only_on_success plainInstaller testWorld
      .unix).2 rfl).2.2.2.2.2.2 rfl (by decide) rfl rfl rfl
